import Mathlib

/-!
# Verification of the fastProcesses core

A shallow embedding of the core of the `fastProcesses` repository
(`src/fastprocesses`): the JSON data model, the input fingerprint
(`CalculationTask.celery_key`, `core/models.py`), input/output validation
(`core/base_process.py`), the Redis-backed cache (`core/cache.py`,
`common.py`), the process registry (`processes/process_registry.py`),
the execution orchestrator (`api/manager.py`) and the queue-side worker
tasks (`worker/celery_app.py`), together with theorems settling the
specification's claims about them.

Machine integers do not occur (Python integers are unbounded); SHA-256
works on naturals reduced modulo 2^32 exactly as the algorithm demands.
-/

/-! ## JSON values

Python objects appearing in `inputs: Dict[str, Any]` after JSON parsing:
`None`, `bool`, `int`, `str`, `list`, `dict`.  (Floats are outside the
scope of this embedding; no claim quantifies over them.)  A `dict` is an
insertion-ordered association list; Python guarantees distinct keys, which
appears below as a `Nodup` hypothesis where it matters. -/

inductive JValue where
  | null : JValue
  | bool (b : Bool) : JValue
  | int (n : Int) : JValue
  | str (s : String) : JValue
  | arr (xs : List JValue) : JValue
  | obj (kvs : List (String × JValue)) : JValue

abbrev JDict := List (String × JValue)

/-- Python `d[k]`-style first-match association lookup. -/
def jLookup (kvs : JDict) (k : String) : Option JValue :=
  match kvs.find? (fun kv => kv.1 == k) with
  | some kv => some kv.2
  | none => none

/-- Python `k in d`. -/
def jHasKey (kvs : JDict) (k : String) : Bool :=
  (jLookup kvs k).isSome

/-! ## `json.dumps(..., sort_keys=True)`

`CalculationTask._hash_dict` serializes `self.inputs` with
`json.dumps(self.inputs, sort_keys=True)`: default separators `", "` and
`": "`, `ensure_ascii=True` (every character outside `0x20..0x7e` is
`\uXXXX`-escaped, so the output is pure ASCII), and object keys sorted
by Python string comparison (code-point lexicographic) at every level. -/

def nibbleChar : Nat → Char
  | 0 => '0' | 1 => '1' | 2 => '2' | 3 => '3'
  | 4 => '4' | 5 => '5' | 6 => '6' | 7 => '7'
  | 8 => '8' | 9 => '9' | 10 => 'a' | 11 => 'b'
  | 12 => 'c' | 13 => 'd' | 14 => 'e' | 15 => 'f'
  | _ + 16 => '0'

def hex4 (n : Nat) : List Char :=
  [nibbleChar (n / 4096 % 16), nibbleChar (n / 256 % 16),
   nibbleChar (n / 16 % 16), nibbleChar (n % 16)]

/-- One character of a Python-JSON string literal (`ensure_ascii=True`). -/
def jsonEscapeChar (c : Char) : List Char :=
  if c = '"' then ['\\', '"']
  else if c = '\\' then ['\\', '\\']
  else if c = '\n' then ['\\', 'n']
  else if c = '\r' then ['\\', 'r']
  else if c = '\t' then ['\\', 't']
  else if c = '\x08' then ['\\', 'b']
  else if c = '\x0c' then ['\\', 'f']
  else if c.toNat < 32 || 126 < c.toNat then
    if c.toNat ≤ 65535 then '\\' :: 'u' :: hex4 c.toNat
    else
      -- UTF-16 surrogate pair, as the Python encoder emits it
      let n := c.toNat - 65536
      ('\\' :: 'u' :: hex4 (55296 + n / 1024)) ++ ('\\' :: 'u' :: hex4 (56320 + n % 1024))
  else [c]

/-- A serialized JSON string literal, double quotes included. -/
def dumpJStr (s : String) : String :=
  ⟨'"' :: (s.data.flatMap jsonEscapeChar) ++ ['"']⟩

/-- Key order of `sort_keys=True`: Python compares strings by code
points, which is exactly the order on `String`. -/
def entryLe (p q : String × String) : Prop := p.1 ≤ q.1

instance : DecidableRel entryLe := fun p q => inferInstanceAs (Decidable (p.1 ≤ q.1))

instance : IsTotal (String × String) entryLe := ⟨fun p q => le_total p.1 q.1⟩

instance : IsTrans (String × String) entryLe := ⟨fun _ _ _ h1 h2 => le_trans h1 h2⟩

def entryLt (p q : String × String) : Prop := p.1 < q.1

instance : IsAntisymm (String × String) entryLt :=
  ⟨fun _ _ h1 h2 => absurd (lt_trans h1 h2) (lt_irrefl _)⟩

/-- Sort the (key, serialized-value) pairs of an object by key, the way
`sort_keys=True` orders a dict's items (distinct keys, so comparison
never goes past the key). -/
def sortEntries (l : List (String × String)) : List (String × String) :=
  l.insertionSort entryLe

def joinEntries : List (String × String) → String
  | [] => ""
  | [(k, sv)] => dumpJStr k ++ ": " ++ sv
  | (k, sv) :: rest => dumpJStr k ++ ": " ++ sv ++ ", " ++ joinEntries rest

def joinItems : List String → String
  | [] => ""
  | [sv] => sv
  | sv :: rest => sv ++ ", " ++ joinItems rest

mutual

/-- `json.dumps(v, sort_keys=True)`. -/
def pyJsonDumps : JValue → String
  | .null => "null"
  | .bool true => "true"
  | .bool false => "false"
  | .int n => toString n
  | .str s => dumpJStr s
  | .arr xs => "[" ++ joinItems (dumpList xs) ++ "]"
  | .obj kvs => "\x7b" ++ joinEntries (sortEntries (dumpEntries kvs)) ++ "\x7d"

def dumpList : List JValue → List String
  | [] => []
  | v :: rest => pyJsonDumps v :: dumpList rest

def dumpEntries : List (String × JValue) → List (String × String)
  | [] => []
  | (k, v) :: rest => (k, pyJsonDumps v) :: dumpEntries rest

end

/-! ## SHA-256 (`hashlib.sha256(...).hexdigest()`)

FIPS 180-4 over the ASCII bytes of the serialized JSON (the serialization
is pure ASCII, so UTF-8 encoding is the identity on code points). -/

def M32 : Nat := 4294967296

def add32 (a b : Nat) : Nat := (a + b) % M32

def not32 (x : Nat) : Nat := (M32 - 1) - x % M32

def rotr32 (n x : Nat) : Nat := (x / 2 ^ n + x % 2 ^ n * 2 ^ (32 - n)) % M32

def shr32 (n x : Nat) : Nat := x / 2 ^ n

def shaCh (e f g : Nat) : Nat := (e &&& f) ^^^ (not32 e &&& g)

def shaMaj (a b c : Nat) : Nat := (a &&& b) ^^^ (a &&& c) ^^^ (b &&& c)

def bigSigma0 (a : Nat) : Nat := rotr32 2 a ^^^ rotr32 13 a ^^^ rotr32 22 a

def bigSigma1 (e : Nat) : Nat := rotr32 6 e ^^^ rotr32 11 e ^^^ rotr32 25 e

def smallSigma0 (x : Nat) : Nat := rotr32 7 x ^^^ rotr32 18 x ^^^ shr32 3 x

def smallSigma1 (x : Nat) : Nat := rotr32 17 x ^^^ rotr32 19 x ^^^ shr32 10 x

def shaK : List Nat :=
  [1116352408, 1899447441, 3049323471, 3921009573, 961987163, 1508970993,
   2453635748, 2870763221, 3624381080, 310598401, 607225278, 1426881987,
   1925078388, 2162078206, 2614888103, 3248222580, 3835390401, 4022224774,
   264347078, 604807628, 770255983, 1249150122, 1555081692, 1996064986,
   2554220882, 2821834349, 2952996808, 3210313671, 3336571891, 3584528711,
   113926993, 338241895, 666307205, 773529912, 1294757372, 1396182291,
   1695183700, 1986661051, 2177026350, 2456956037, 2730485921, 2820302411,
   3259730800, 3345764771, 3516065817, 3600352804, 4094571909, 275423344,
   430227734, 506948616, 659060556, 883997877, 958139571, 1322822218,
   1537002063, 1747873779, 1955562222, 2024104815, 2227730452, 2361852424,
   2428436474, 2756734187, 3204031479, 3329325298]

/-- The eight working words of the SHA-256 state. -/
structure Sha8 where
  a : Nat
  b : Nat
  c : Nat
  d : Nat
  e : Nat
  f : Nat
  g : Nat
  h : Nat

def shaInit : Sha8 :=
  ⟨1779033703, 3144134277, 1013904242, 2773480762,
   1359893119, 2600822924, 528734635, 1541459225⟩

def shaRound (st : Sha8) (kw : Nat × Nat) : Sha8 :=
  let t1 := add32 st.h (add32 (bigSigma1 st.e) (add32 (shaCh st.e st.f st.g) (add32 kw.1 kw.2)))
  let t2 := add32 (bigSigma0 st.a) (shaMaj st.a st.b st.c)
  ⟨add32 t1 t2, st.a, st.b, st.c, add32 st.d t1, st.e, st.f, st.g⟩

/-- Extend the 16 message-schedule words by `n` more. -/
def shaExtend : Nat → List Nat → List Nat
  | 0, w => w
  | n + 1, w =>
    let len := w.length
    let nw := add32 (add32 (smallSigma1 (w.getD (len - 2) 0)) (w.getD (len - 7) 0))
                    (add32 (smallSigma0 (w.getD (len - 15) 0)) (w.getD (len - 16) 0))
    shaExtend n (w ++ [nw])

/-- The 16 big-endian 32-bit words of one 64-byte block. -/
def blockWords : List Nat → List Nat
  | b0 :: b1 :: b2 :: b3 :: rest =>
    (b0 * 16777216 + b1 * 65536 + b2 * 256 + b3) :: blockWords rest
  | _ => []

def shaCompress (st : Sha8) (block : List Nat) : Sha8 :=
  let w := shaExtend 48 (blockWords block)
  let r := (shaK.zip w).foldl shaRound st
  ⟨add32 st.a r.a, add32 st.b r.b, add32 st.c r.c, add32 st.d r.d,
   add32 st.e r.e, add32 st.f r.f, add32 st.g r.g, add32 st.h r.h⟩

/-- Big-endian byte list of `n`, `k` bytes wide. -/
def beBytes : Nat → Nat → List Nat
  | 0, _ => []
  | k + 1, n => beBytes k (n / 256) ++ [n % 256]

/-- SHA-256 padding: `0x80`, zeros to 56 mod 64, 8-byte bit length. -/
def shaPad (msg : List Nat) : List Nat :=
  let l := msg.length
  msg ++ 128 :: List.replicate ((64 + 55 - l % 64) % 64) 0 ++ beBytes 8 (8 * l)

def chunks64 (l : List Nat) : List (List Nat) :=
  match l with
  | [] => []
  | x :: xs => ((x :: xs).take 64) :: chunks64 ((x :: xs).drop 64)
  termination_by l.length
  decreasing_by simp [List.length_drop]; omega

def toHex8 (n : Nat) : List Char :=
  [nibbleChar (n / 268435456 % 16), nibbleChar (n / 16777216 % 16),
   nibbleChar (n / 1048576 % 16), nibbleChar (n / 65536 % 16),
   nibbleChar (n / 4096 % 16), nibbleChar (n / 256 % 16),
   nibbleChar (n / 16 % 16), nibbleChar (n % 16)]

/-- `hashlib.sha256(s.encode()).hexdigest()` for an ASCII string `s`. -/
def sha256hex (s : String) : String :=
  let digest := (chunks64 (shaPad (s.data.map Char.toNat))).foldl shaCompress shaInit
  ⟨toHex8 digest.a ++ toHex8 digest.b ++ toHex8 digest.c ++ toHex8 digest.d ++
   toHex8 digest.e ++ toHex8 digest.f ++ toHex8 digest.g ++ toHex8 digest.h⟩

/-! ## `CalculationTask` (`core/models.py`)

`inputs: Dict[str, Any]`, `outputs: List[str] | None = None`,
`response: ResponseType = RAW`; the fingerprint `celery_key` hashes the
sorted-key JSON serialization of `inputs` only. -/

inductive ResponseType where
  | raw
  | document
deriving DecidableEq

structure CalculationTask where
  inputs : JDict
  outputs : Option (List String) := none
  response : ResponseType := .raw

/-- `CalculationTask._hash_dict`. -/
def CalculationTask.hash_dict (t : CalculationTask) : String :=
  sha256hex (pyJsonDumps (.obj t.inputs))

/-- `CalculationTask.celery_key` (computed field). -/
def CalculationTask.celery_key (t : CalculationTask) : String :=
  t.hash_dict

/-! ## Canonicity of the sorted serialization -/

theorem dumpEntries_eq_map (l : List (String × JValue)) :
    dumpEntries l = l.map (fun kv => (kv.1, pyJsonDumps kv.2)) := by
  induction l with
  | nil => rfl
  | cons kv rest ih => cases kv; simp [dumpEntries, ih]

theorem sortEntries_sorted (l : List (String × String)) :
    (sortEntries l).Sorted entryLe :=
  List.sorted_insertionSort entryLe l

theorem sortEntries_perm (l : List (String × String)) :
    (sortEntries l).Perm l :=
  List.perm_insertionSort entryLe l

/-- A key-sorted list of entries with duplicate-free keys is unique in its
permutation class: sorting any reordering gives the same list. -/
theorem sortEntries_eq_of_perm (l₁ l₂ : List (String × String))
    (hperm : l₁.Perm l₂) (hnd : (l₁.map Prod.fst).Nodup) :
    sortEntries l₁ = sortEntries l₂ := by
  have hp : (sortEntries l₁).Perm (sortEntries l₂) :=
    ((sortEntries_perm l₁).trans hperm).trans (sortEntries_perm l₂).symm
  have hnd₁ : ((sortEntries l₁).map Prod.fst).Nodup :=
    (((sortEntries_perm l₁).map Prod.fst).nodup_iff).mpr hnd
  have hnd₂ : ((sortEntries l₂).map Prod.fst).Nodup :=
    ((hp.map Prod.fst).nodup_iff).mp hnd₁
  have hlt : ∀ (l : List (String × String)), ((l.map Prod.fst).Nodup) →
      l.Sorted entryLe → l.Sorted entryLt := by
    intro l hnd hs
    have hne : l.Pairwise (fun p q => p.1 ≠ q.1) := List.pairwise_map.mp hnd
    exact (hs.and hne).imp (fun h => lt_of_le_of_ne h.1 h.2)
  exact List.eq_of_perm_of_sorted hp
    (hlt _ hnd₁ (sortEntries_sorted l₁)) (hlt _ hnd₂ (sortEntries_sorted l₂))

/-- `C1`: For every inputs mapping, `CalculationTask.celery_key` is a pure
deterministic function of the inputs mapping alone: it is invariant under
reordering of the inputs' keys (the serialization sorts them), and the
task's `outputs` selection and `response` mode do not enter the hash at
all, so two requests with identical inputs but different output selection
hash identically.  (Determinism under repeated calls is the purity of the
embedded function; the statement with `i₂ = i₁` is idempotence.) -/
theorem celery_key_input_only (i₁ i₂ : JDict) (o₁ o₂ : Option (List String))
    (r₁ r₂ : ResponseType) (hperm : i₁.Perm i₂)
    (hnd : (i₁.map Prod.fst).Nodup) :
    CalculationTask.celery_key ⟨i₁, o₁, r₁⟩ = CalculationTask.celery_key ⟨i₂, o₂, r₂⟩ := by
  have hmap : (dumpEntries i₁).Perm (dumpEntries i₂) := by
    rw [dumpEntries_eq_map, dumpEntries_eq_map]
    exact hperm.map _
  have hkeys : ((dumpEntries i₁).map Prod.fst).Nodup := by
    rw [dumpEntries_eq_map, List.map_map]
    exact hnd
  have hsort : sortEntries (dumpEntries i₁) = sortEntries (dumpEntries i₂) :=
    sortEntries_eq_of_perm _ _ hmap hkeys
  show sha256hex (pyJsonDumps (.obj i₁)) = sha256hex (pyJsonDumps (.obj i₂))
  simp only [pyJsonDumps, hsort]

/-- Witness for `C1` at a concrete reordered two-key mapping with
different output selections and response modes. -/
theorem celery_key_input_only_witness :
    CalculationTask.celery_key
        ⟨[("b", .str "x"), ("a", .int 1)], none, .raw⟩ =
      CalculationTask.celery_key
        ⟨[("a", .int 1), ("b", .str "x")], some ["result"], .document⟩ :=
  celery_key_input_only _ _ _ _ _ _
    (List.Perm.swap ("a", JValue.int 1) ("b", JValue.str "x") [])
    (by decide)

/-! ## Error model

The manager and the validators raise Python exceptions; the embedding
carries them in `Except`.  `BaseProcess.validate_inputs` /
`validate_outputs` raise `ValueError` (the spec names these conditions
`InputValidationError` / `OutputValidationError`); pydantic model
construction can raise a `ValidationError`; a missing attribute raises
`AttributeError`.  `PyErr.kind` is the Python exception type. -/

inductive PyErr where
  | valueError (msg : String)
  | attributeError (msg : String)
  | validationError (msg : String)
deriving DecidableEq

def PyErr.kind : PyErr → String
  | .valueError _ => "ValueError"
  | .attributeError _ => "AttributeError"
  | .validationError _ => "pydantic.ValidationError"

/-- `str(e)`. -/
def PyErr.msg : PyErr → String
  | .valueError m => m
  | .attributeError m => m
  | .validationError m => m

/-! ## Process descriptions (`core/models.py`) -/

/-- `Schema` (only the `type` member is consulted by the embedded
operations; the remaining members never influence control flow in the
modelled code). -/
structure JSchema where
  type : Option String := none
deriving DecidableEq

/-- `ProcessInput` (pydantic defaults `minOccurs = 1`, `maxOccurs = 1`). -/
structure ProcessInput where
  title : String := ""
  description : String := ""
  scheme : JSchema := {}
  minOccurs : Int := 1
  maxOccurs : Int := 1
deriving DecidableEq

structure ProcessOutput where
  title : String := ""
  description : String := ""
  scheme : JSchema := {}
deriving DecidableEq

/-- `ProcessDescription`; `inputs` and `outputs` are insertion-ordered
dicts.  (`jobControlOptions`, `outputTransmission`, `links`, `keywords`
and `metadata` play no role in the embedded operations.) -/
structure ProcessDescription where
  id : String
  version : String := "1.0.0"
  title : String := ""
  description : String := ""
  inputs : List (String × ProcessInput) := []
  outputs : List (String × ProcessOutput) := []
deriving DecidableEq

/-- The request's `outputs` member
(`dict[str, dict[str, OutputControl]] | None`): an insertion-ordered dict
from output name to an options object.  Only its keys ever matter to the
modelled code, so the per-output options are kept as raw JSON. -/
abbrev OutDict := List (String × JValue)

/-- A `BaseProcess` implementation: its class-level description plus its
`execute` operation (third-party code, a pure function here). -/
structure BaseProcess where
  process_description : ProcessDescription
  execute : JDict → JValue

def BaseProcess.get_description (p : BaseProcess) : ProcessDescription :=
  p.process_description

/-! ## Input/output validation (`core/base_process.py`) -/

/-- Python `type(v).__name__` for JSON-shaped values. -/
def pyTypeName : JValue → String
  | .null => "NoneType"
  | .bool _ => "bool"
  | .int _ => "int"
  | .str _ => "str"
  | .arr _ => "list"
  | .obj _ => "dict"

/-- `isinstance(v, str)`. -/
def JValue.isinstance_str : JValue → Bool
  | .str _ => true
  | _ => false

/-- `isinstance(v, (int, float))`; note `bool` is a subclass of `int` in
Python, so booleans satisfy this check. -/
def JValue.isinstance_number : JValue → Bool
  | .int _ => true
  | .bool _ => true
  | _ => false

def missingInputMsg (name : String) (d : ProcessInput) : String :=
  "Missing required input \x27" ++ name ++ "\x27. Description: " ++ d.description

def invalidTypeMsg (name expected : String) (v : JValue) (d : ProcessInput) : String :=
  "Invalid type for input \x27" ++ name ++ "\x27. Expected " ++ expected ++
    ", got " ++ pyTypeName v ++ ". Description: " ++ d.description

/-- One iteration of the loop body of `BaseProcess.validate_inputs`:
missing-required check, then type checks when the input is present. -/
def checkOneInput (inputs : JDict) (name : String) (d : ProcessInput) : Option PyErr :=
  if d.minOccurs > 0 ∧ ¬ jHasKey inputs name then
    some (.valueError (missingInputMsg name d))
  else
    match jLookup inputs name with
    | some v =>
      if d.scheme.type = some "string" ∧ ¬ v.isinstance_str then
        some (.valueError (invalidTypeMsg name "string" v d))
      else if d.scheme.type = some "number" ∧ ¬ v.isinstance_number then
        some (.valueError (invalidTypeMsg name "number" v d))
      else none
    | none => none

def validateInputsLoop (inputs : JDict) : List (String × ProcessInput) → Except PyErr Bool
  | [] => .ok true
  | (name, d) :: rest =>
    match checkOneInput inputs name d with
    | some e => .error e
    | none => validateInputsLoop inputs rest

/-- `BaseProcess.validate_inputs`. -/
def BaseProcess.validate_inputs (p : BaseProcess) (inputs : JDict) : Except PyErr Bool :=
  validateInputsLoop inputs p.get_description.inputs

def invalidOutputsMsg (invalid available : List String) : String :=
  "Invalid output identifiers: " ++ String.intercalate ", " invalid ++
    ". Available outputs are: " ++ String.intercalate ", " available

/-- `BaseProcess.validate_outputs`.  (The `isinstance(outputs, dict)`
branch is unreachable in the embedding, where the argument is typed.) -/
def BaseProcess.validate_outputs (p : BaseProcess) (outputs : Option OutDict) :
    Except PyErr Bool :=
  let available := p.get_description.outputs.map Prod.fst
  if available.isEmpty then .error (.valueError "Process has no defined outputs")
  else
    match outputs with
    | none => .ok true
    | some o =>
      let invalid := (o.map Prod.fst).filter (fun out => ¬ available.contains out)
      if invalid.isEmpty then .ok true
      else .error (.valueError (invalidOutputsMsg invalid available))

/-! ## Job status records (`core/models.py`) -/

structure Link where
  href : String
  rel : String
  type : String
deriving DecidableEq

/-- Modelled from the spec: `JobStatusCode`, the job lifecycle status
enum imported by `api/manager.py` from `core/models.py` but whose
definition is not part of the provided sources.  Spec section 4.3 gives
the states `accepted → running → successful | failed`; it is a string
enum like the neighbouring enums, and `manager.py` uses the members
`ACCEPTED` and `SUCCESSFUL`. -/
inductive JobStatusCode where
  | accepted
  | running
  | successful
  | failed
deriving DecidableEq

def JobStatusCode.val : JobStatusCode → String
  | .accepted => "accepted"
  | .running => "running"
  | .successful => "successful"
  | .failed => "failed"

/-- `JobStatusInfo`.  Timestamps are clock readings (naturals here).
The strategies pass a `"process_id"` key to `model_validate`, but the
field is `processID` with no alias, so pydantic drops the extra key and
`processID` stays `None` on every record the manager writes. -/
structure JobStatusInfo where
  jobID : String
  status : String
  type : String := "process"
  processID : Option String := none
  message : Option String := none
  created : Option Nat := none
  started : Option Nat := none
  finished : Option Nat := none
  updated : Option Nat := none
  progress : Option Nat := none
  links : List Link := []
deriving DecidableEq

/-- `ProcessExecResponse` has exactly these three fields; pydantic's
default `extra="ignore"` silently drops any further keyword (such as the
`value=result` passed by `SyncExecutionStrategy.execute`). -/
structure ProcessExecResponse where
  status : String
  jobID : String
  type : String := "process"
deriving DecidableEq

inductive ExecutionMode where
  | sync
  | async
deriving DecidableEq

/-- `ProcessExecRequestBody`. -/
structure ProcessExecRequestBody where
  inputs : JDict
  outputs : Option OutDict := none
  mode : ExecutionMode := .async
  response : ResponseType := .raw

/-! ## The shared Redis store and the `Cache` wrapper
(`core/cache.py`, `common.py`)

One key space; values are JSON documents, kept structured here
(a fingerprinted process result or a job status record). -/

inductive StoredVal where
  | result (v : JValue)
  | job (j : JobStatusInfo)

/-- Is this stored document a job status record? -/
def StoredVal.isJob : StoredVal → Bool
  | .job _ => true
  | .result _ => false

abbrev Store := List (String × StoredVal)

def assocGet (store : Store) (k : String) : Option StoredVal :=
  (store.find? (fun e => e.1 == k)).map Prod.snd

def assocPut (store : Store) (k : String) (v : StoredVal) : Store :=
  match store with
  | [] => [(k, v)]
  | (k', v') :: rest => if k' = k then (k, v) :: rest else (k', v') :: assocPut rest k v

/-- `Cache._make_key` (the first argument is the instance's
`key_prefix`). -/
def make_key (pfx key : String) : String := pfx ++ ":" ++ key

/-- `common.redis_cache = Cache(key_prefix="process_results", ...)`. -/
def redisCacheNs : String := "process_results"

def redisMakeKey (key : String) : String := make_key redisCacheNs key

/-- `Cache.get` (on the shared instance). -/
def Cache.get (store : Store) (key : String) : Option StoredVal :=
  assocGet store (redisMakeKey key)

/-- `Cache.put` (`SETEX`; the expiry clock is outside this embedding). -/
def Cache.put (store : Store) (key : String) (v : StoredVal) : Store :=
  assocPut store (redisMakeKey key) v

/-- `Cache.delete`. -/
def Cache.delete (store : Store) (key : String) : Store :=
  store.filter (fun e => ¬ (e.1 = redisMakeKey key))

/-- String prefix test on the character data (the sources only ever use
pure-ASCII keys, where this coincides with byte-level matching). -/
def strStartsWith (p s : String) : Bool := p.data.isPrefixOf s.data

/-- Drop the first `n` characters. -/
def strDrop (s : String) (n : Nat) : String := ⟨s.data.drop n⟩

/-- `Cache.keys(body ++ "*")`: Redis `KEYS` on `make_key(pattern)`
(a glob whose only wildcard is the trailing `*`), with the instance
prefix and its colon stripped from every returned key. -/
def Cache.keys (store : Store) (body : String) : List String :=
  (store.map Prod.fst).filterMap (fun k =>
    if strStartsWith (redisMakeKey body) k then some (strDrop k (redisCacheNs.length + 1))
    else none)

/-! ## Celery (task queue and result backend) -/

/-- The observable state of a task id in the Celery result backend
(`AsyncResult(id).state`): an id the backend knows nothing about reports
`PENDING`. -/
inductive CeleryState where
  | pending
  | started
  | success (res : JValue)
  | failure (errMsg : String)

/-- The positional `args` of each `send_task` call in the sources,
kept structured (serialization at the queue boundary is lossless for
these payloads). -/
inductive TaskArgs where
  | executeProcess (process_id : String) (data : CalculationTask)
  | checkCache (dump : CalculationTask)
  | findResult (celery_key : String)
  | storeResult (process_id : String) (celery_key : String) (result : JValue)

structure QueuedTask where
  name : String
  args : TaskArgs

/-- The task names the worker module registers
(`@celery_app.task(name=...)` in `worker/celery_app.py`).  Note
`"store_result"`, sent by `SyncExecutionStrategy.execute`, is not among
them. -/
def registeredCeleryTasks : List String :=
  ["execute_process", "check_cache", "find_result_in_cache"]

/-! ## System state -/

/-- The shared mutable world the orchestrator and worker act on:
the registry hash, the Redis cache key space, the Celery result backend,
the queue of sent tasks, a fresh-task-id source and a clock.
`execLog` is an observation log: one entry per invocation of a process
implementation's `execute`. -/
structure SysState where
  registry : List (String × BaseProcess) := []
  store : Store := []
  celery : List (String × CeleryState) := []
  queued : List QueuedTask := []
  nextTaskId : Nat := 0
  clock : Nat := 0
  execLog : List (String × JDict) := []

def mintTaskId (n : Nat) : String := "task-" ++ toString n

/-- `celery_app.send_task(name, args)`: enqueue and mint a fresh task id. -/
def SysState.send_task (st : SysState) (name : String) (args : TaskArgs) :
    String × SysState :=
  (mintTaskId st.nextTaskId,
   { st with queued := st.queued ++ [⟨name, args⟩], nextTaskId := st.nextTaskId + 1 })

/-- `AsyncResult(job_id).state`. -/
def SysState.celeryState (st : SysState) (id : String) : CeleryState :=
  ((st.celery.find? (fun e => e.1 == id)).map Prod.snd).getD .pending

/-! ## Process registry (`processes/process_registry.py`) -/

/-- `ProcessRegistry.has_process` (`HEXISTS` on the registry hash). -/
def ProcessRegistry.has_process (st : SysState) (pid : String) : Bool :=
  (st.registry.find? (fun e => e.1 == pid)).isSome

/-- `ProcessRegistry.get_process`: fetch the stored registration and
instantiate the implementation it locates (instantiation is direct here;
the class-not-found branch needs code absent from the running image). -/
def ProcessRegistry.get_process (st : SysState) (pid : String) :
    Except PyErr BaseProcess :=
  match st.registry.find? (fun e => e.1 == pid) with
  | some e => .ok e.2
  | none => .error (.valueError ("Process " ++ pid ++ " not found!"))

/-- `ProcessRegistry.get_process_ids` (`HKEYS`, insertion order). -/
def ProcessRegistry.get_process_ids (st : SysState) : List String :=
  st.registry.map Prod.fst

/-- The attribute names the `ProcessRegistry` class defines
(methods and properties of `processes/process_registry.py`); Python
attribute lookup on a registry instance succeeds exactly for these. -/
def processRegistryAttrs : List String :=
  ["__init__", "_create_connection_pool", "_establish_connection", "redis",
   "register_process", "get_process_ids", "has_process", "get_process"]

/-! ## Queue-side worker tasks (`worker/celery_app.py`) -/

/-- The `"check_cache"` task: probe the result cache under the
fingerprint.  The Python task returns `{"status": "HIT", "result": ...}`
or `{"status": "MISS"}`; the pair below is that dict, structured. -/
def Worker.check_cache (store : Store) (dump : CalculationTask) :
    String × Option StoredVal :=
  match Cache.get store dump.celery_key with
  | some v => ("HIT", some v)
  | none => ("MISS", none)

/-- The `"find_result_in_cache"` task. -/
def Worker.find_result_in_cache (store : Store) (celery_key : String) :
    Option StoredVal :=
  Cache.get store celery_key

/-- The body of the `"execute_process"` task: it resolves the service via
`get_process_registry().get_service(process_id)`.  `ProcessRegistry`
defines no attribute `get_service` (see `processRegistryAttrs`), so the
attribute lookup itself raises `AttributeError` before any process code
can run.  The guarded branch spells out what a successful lookup would
go on to do; it is unreachable. -/
def Worker.execute_process (st : SysState) (pid : String) (data : CalculationTask) :
    Except PyErr JValue × SysState :=
  if processRegistryAttrs.contains "get_service" then
    match ProcessRegistry.get_process st pid with
    | .error e => (.error e, st)
    | .ok service =>
      (.ok (service.execute data.inputs),
       { st with execLog := st.execLog ++ [(pid, data.inputs)] })
  else
    (.error (.attributeError
      "\x27ProcessRegistry\x27 object has no attribute \x27get_service\x27"), st)

/-- The `"execute_process"` task as Celery runs it, with its
`CacheResultTask` base: `on_success` writes the return value to the
result cache under the fingerprint; a raised error skips `on_success`. -/
def Worker.run_execute_process (st : SysState) (pid : String) (data : CalculationTask) :
    Except PyErr JValue × SysState :=
  match Worker.execute_process st pid data with
  | (.ok retval, st') =>
    (.ok retval, { st' with store := Cache.put st'.store data.celery_key (.result retval) })
  | (.error e, st') => (.error e, st')

/-! ## Execution strategies and the manager (`api/manager.py`) -/

def selfLink (tid : String) : Link :=
  ⟨"/jobs/" ++ tid, "self", "application/json"⟩

def resultsLink (tid : String) : Link :=
  ⟨"/jobs/" ++ tid ++ "/results", "results", "application/json"⟩

/-- `AsyncExecutionStrategy.execute`: submit `"execute_process"`, record
an `accepted`/0% job status under `job:<task id>`, reply with the job id. -/
def AsyncExecutionStrategy.execute (st : SysState) (pid : String)
    (ct : CalculationTask) : ProcessExecResponse × SysState :=
  let (tid, st1) := st.send_task "execute_process" (.executeProcess pid ct)
  let job : JobStatusInfo :=
    { jobID := tid, status := "accepted", type := "process",
      created := some st1.clock, updated := some st1.clock,
      progress := some 0, links := [selfLink tid] }
  let st2 := { st1 with store := Cache.put st1.store ("job:" ++ tid) (.job job) }
  (⟨"accepted", tid, "process"⟩, st2)

/-- `SyncExecutionStrategy.execute`: run the implementation in-process,
submit `"store_result"`, record a job status under the new task id, and
answer `status="successful"`.  The record is written with
`JobStatusCode.ACCEPTED` and `progress=0`, and the `value=result`
keyword passed to `ProcessExecResponse` is dropped by pydantic because
the model has no such field. -/
def SyncExecutionStrategy.execute (st : SysState) (pid : String)
    (ct : CalculationTask) : Except PyErr ProcessExecResponse × SysState :=
  match ProcessRegistry.get_process st pid with
  | .error e => (.error e, st)
  | .ok process =>
    let result := process.execute ct.inputs
    let st0 := { st with execLog := st.execLog ++ [(pid, ct.inputs)] }
    let (tid, st1) := st0.send_task "store_result" (.storeResult pid ct.celery_key result)
    let job : JobStatusInfo :=
      { jobID := tid, status := JobStatusCode.accepted.val, type := "process",
        created := some st1.clock, updated := some st1.clock,
        progress := some 0, links := [selfLink tid] }
    let st2 := { st1 with store := Cache.put st1.store ("job:" ++ tid) (.job job) }
    (.ok ⟨"successful", tid, "process"⟩, st2)

/-- The terminal job record `_check_cache` writes on a hit. -/
def cacheHitJobRecord (tid : String) (clk : Nat) : JobStatusInfo :=
  { jobID := tid, status := JobStatusCode.successful.val, type := "process",
    created := some clk, started := some clk,
    finished := some clk, updated := some clk,
    progress := some 100, message := some "Result retrieved from cache",
    links := [resultsLink tid, selfLink tid] }

/-- `ProcessManager._check_cache`: send `"check_cache"` and wait for its
verdict (the worker-side probe of the store); on a hit, send
`"find_result_in_cache"`, mint its task id as the new job id, record a
terminal `successful`/100% job status with the from-cache message, and
return the response; on a miss return `None`. -/
def ProcessManager._check_cache (st : SysState) (ct : CalculationTask) :
    Option ProcessExecResponse × SysState :=
  let (_, st1) := st.send_task "check_cache" (.checkCache ct)
  let verdict := Worker.check_cache st1.store ct
  if verdict.1 = "HIT" then
    let (tid, st2) := st1.send_task "find_result_in_cache" (.findResult ct.celery_key)
    let st3 := { st2 with
      store := Cache.put st2.store ("job:" ++ tid) (.job (cacheHitJobRecord tid st2.clock)) }
    (some ⟨"successful", tid, "process"⟩, st3)
  else (none, st1)

/-- `ProcessManager.execute_process`: resolve, validate inputs, validate
outputs, build the `CalculationTask`, consult the cache, then dispatch to
the selected strategy.  Building the `CalculationTask` validates the
request's `outputs` dict against the model's `List[str] | None` field;
pydantic rejects every dict there, so a request with a non-null output
selection raises a `ValidationError` at this point. -/
def ProcessManager.execute_process (st : SysState) (pid : String)
    (data : ProcessExecRequestBody) (mode : ExecutionMode) :
    Except PyErr ProcessExecResponse × SysState :=
  if ProcessRegistry.has_process st pid then
    match ProcessRegistry.get_process st pid with
    | .error e => (.error e, st)
    | .ok service =>
      match service.validate_inputs data.inputs with
      | .error e => (.error (.valueError ("Input validation failed: " ++ e.msg)), st)
      | .ok _ =>
        match service.validate_outputs data.outputs with
        | .error e => (.error (.valueError ("Output validation failed: " ++ e.msg)), st)
        | .ok _ =>
          match data.outputs with
          | some _ =>
            (.error (.validationError
              "CalculationTask outputs: Input should be a valid list"), st)
          | none =>
            let ct : CalculationTask := { inputs := data.inputs, outputs := none,
                                          response := data.response }
            match ProcessManager._check_cache st ct with
            | (some cached, st1) => (.ok cached, st1)
            | (none, st1) =>
              match mode with
              | .sync => SyncExecutionStrategy.execute st1 pid ct
              | .async =>
                let (resp, st2) := AsyncExecutionStrategy.execute st1 pid ct
                (.ok resp, st2)
  else (.error (.valueError ("Process " ++ pid ++ " not found!")), st)

/-- `ProcessManager.get_available_processes`: slice the registry's id
enumeration, describe each listed process, and emit a next link exactly
when `offset + limit < len(process_ids)`. -/
def ProcessManager.get_available_processes (st : SysState) (limit offset : Nat) :
    List ProcessDescription × Option String :=
  let process_ids := ProcessRegistry.get_process_ids st
  let processes := ((process_ids.drop offset).take limit).filterMap (fun pid =>
    ((st.registry.find? (fun e => e.1 == pid)).map (fun e => e.2.process_description)))
  let next := if offset + limit < process_ids.length then
    some ("/processes?limit=" ++ toString limit ++ "&offset=" ++ toString (offset + limit))
  else none
  (processes, next)

/-- `ProcessManager.get_job_result`: existence check against the job
record, then a decision on `AsyncResult(job_id).state`.  Both failure
modes are plain `ValueError`s. -/
def ProcessManager.get_job_result (st : SysState) (job_id : String) :
    Except PyErr JValue :=
  match Cache.get st.store ("job:" ++ job_id) with
  | none => .error (.valueError ("Job " ++ job_id ++ " not found"))
  | some _ =>
    match st.celeryState job_id with
    | .pending => .error (.valueError "Result not ready")
    | .failure m => .error (.valueError ("Job failed: " ++ m))
    | .success r => .ok r
    | .started => .ok (.obj [("status", .str "running"), ("type", .str "process")])

/-- `ProcessManager.delete_job`: `AsyncResult(job_id)` always constructs
a (truthy) handle, so the `if not result: raise ValueError("Job not
found")` guard can never fire; `forget()` drops the backend entry, and
nothing touches the `job:<id>` record in the cache. -/
def ProcessManager.delete_job (st : SysState) (job_id : String) :
    Except PyErr JValue × SysState :=
  let st1 := { st with celery := st.celery.filter (fun e => ¬ (e.1 = job_id)) }
  (.ok (.obj [("status", .str "dismissed"), ("message", .str "Job dismissed")]), st1)

/-- `ProcessManager.get_jobs`: slice `keys("job:*")`, parse each record
(records that fail to load are skipped by the `try`/`except`), and emit
a next link exactly when `offset + limit < len(job_keys)`. -/
def ProcessManager.get_jobs (st : SysState) (limit offset : Nat) :
    List JobStatusInfo × Option String :=
  let job_keys := Cache.keys st.store "job:"
  let jobs := ((job_keys.drop offset).take limit).filterMap (fun k =>
    match Cache.get st.store k with
    | some (.job j) => some j
    | _ => none)
  let next := if offset + limit < job_keys.length then
    some ("/jobs?limit=" ++ toString limit ++ "&offset=" ++ toString (offset + limit))
  else none
  (jobs, next)

/-! ## Store and key lemmas -/

theorem assocGet_put_self (s : Store) (k : String) (v : StoredVal) :
    assocGet (assocPut s k v) k = some v := by
  induction s with
  | nil => simp [assocPut, assocGet, List.find?]
  | cons e rest ih =>
    by_cases h : e.1 = k
    · simp [assocPut, h, assocGet, List.find?]
    · cases e with
      | mk k' v' =>
        simp only at h
        simp only [assocPut, if_neg h, assocGet, List.find?]
        rw [show (k' == k) = false from beq_eq_false_iff_ne.mpr h]
        exact ih

theorem assocGet_put_other (s : Store) (k k' : String) (v : StoredVal)
    (h : k' ≠ k) : assocGet (assocPut s k v) k' = assocGet s k' := by
  induction s with
  | nil =>
    simp only [assocPut, assocGet, List.find?]
    rw [show (k == k') = false from beq_eq_false_iff_ne.mpr (Ne.symm h)]
  | cons e rest ih =>
    cases e with
    | mk k₀ v₀ =>
      by_cases h0 : k₀ = k
      · subst h0
        simp only [assocPut, if_pos rfl, assocGet, List.find?]
        rw [show (k₀ == k') = false from beq_eq_false_iff_ne.mpr (fun hh => h (hh ▸ rfl))]
      · simp only [assocPut, if_neg h0, assocGet, List.find?]
        cases hk : (k₀ == k') with
        | true => rfl
        | false => exact ih

theorem mem_assocPut (s : Store) (k : String) (v : StoredVal) (kv : String × StoredVal)
    (h : kv ∈ assocPut s k v) : kv = (k, v) ∨ kv ∈ s := by
  induction s with
  | nil => simpa [assocPut] using h
  | cons e rest ih =>
    cases e with
    | mk k' v' =>
      by_cases h0 : k' = k
      · simp only [assocPut, if_pos h0] at h
        rcases List.mem_cons.mp h with h1 | h1
        · exact .inl h1
        · exact .inr (List.mem_cons_of_mem _ h1)
      · simp only [assocPut, if_neg h0] at h
        rcases List.mem_cons.mp h with h1 | h1
        · exact .inr (h1 ▸ List.mem_cons_self _ _)
        · rcases ih h1 with h2 | h2
          · exact .inl h2
          · exact .inr (List.mem_cons_of_mem _ h2)

theorem Cache.get_put_self (s : Store) (k : String) (v : StoredVal) :
    Cache.get (Cache.put s k v) k = some v :=
  assocGet_put_self s _ v

theorem Cache.get_put_other (s : Store) (k k' : String) (v : StoredVal)
    (h : redisMakeKey k' ≠ redisMakeKey k) :
    Cache.get (Cache.put s k v) k' = Cache.get s k' :=
  assocGet_put_other s _ _ v h

/-- The hex digest opens with a hex digit. -/
theorem sha256hex_data_head (x : String) :
    ∃ c rest, (sha256hex x).data = nibbleChar c :: rest :=
  ⟨_, _, rfl⟩

theorem nibbleChar_ne_j (n : Nat) : nibbleChar n ≠ 'j' := by
  unfold nibbleChar
  split <;> decide

/-- A 64-hex-character digest is never a `job:`-prefixed string. -/
theorem sha256hex_ne_job (x id : String) : sha256hex x ≠ "job:" ++ id := by
  intro h
  obtain ⟨c, rest, hdata⟩ := sha256hex_data_head x
  have hd : (sha256hex x).data = ("job:" ++ id).data := by rw [h]
  rw [hdata, String.data_append] at hd
  have : nibbleChar c = 'j' := by
    have := List.head_eq_of_cons_eq hd
    simpa using this
  exact nibbleChar_ne_j c this

theorem redisMakeKey_inj (a b : String) (h : redisMakeKey a = redisMakeKey b) :
    a = b := by
  have hd : ("process_results:" ++ a).data = ("process_results:" ++ b).data := by
    have : ("process_results:" ++ a) = ("process_results:" ++ b) := h
    rw [this]
  rw [String.data_append, String.data_append] at hd
  have h2 := List.append_cancel_left hd
  cases a; cases b
  simp only at h2
  rw [h2]

/-- Disjointness of the two logical key families: a fingerprint key never
coincides with a job record key. -/
theorem celery_key_ne_job_key (t : CalculationTask) (id : String) :
    redisMakeKey t.celery_key ≠ redisMakeKey ("job:" ++ id) := by
  intro h
  exact sha256hex_ne_job _ id (redisMakeKey_inj _ _ h)

/-! ## Claims C5, C9, C6, C7 -/

/-- `C5`: for every process id and payload, the queue-side
`"execute_process"` task resolves the service via `get_service`, an
attribute `ProcessRegistry` does not define, so every async-dispatched
execution raises `AttributeError` before reaching the process
implementation, returns no result, and leaves the whole system state —
in particular the result cache and the execution log — untouched; the
`on_success` cache write never runs. -/
theorem worker_execute_process_get_service_missing (st : SysState) (pid : String)
    (data : CalculationTask) :
    processRegistryAttrs.contains "get_service" = false ∧
    Worker.run_execute_process st pid data =
      (.error (.attributeError
        "\x27ProcessRegistry\x27 object has no attribute \x27get_service\x27"), st) :=
  ⟨rfl, rfl⟩

/-- `C9`: for every limit `L ≥ 1` and offset, listing processes and
listing jobs each return at most `L` items, and the next link is present
exactly when `offset + limit` is below the length of the underlying
enumeration (the registry's process ids, resp. the store's `job:*`
keys). -/
theorem pagination_limit_and_next_link (st : SysState) (limit offset : Nat)
    (_h : 1 ≤ limit) :
    ((ProcessManager.get_available_processes st limit offset).1.length ≤ limit ∧
      ((ProcessManager.get_available_processes st limit offset).2.isSome ↔
        offset + limit < (ProcessRegistry.get_process_ids st).length)) ∧
    ((ProcessManager.get_jobs st limit offset).1.length ≤ limit ∧
      ((ProcessManager.get_jobs st limit offset).2.isSome ↔
        offset + limit < (Cache.keys st.store "job:").length)) := by
  refine ⟨⟨?_, ?_⟩, ?_, ?_⟩
  · exact le_trans (List.length_filterMap_le _ _) (List.length_take_le _ _)
  · by_cases hc : offset + limit < (ProcessRegistry.get_process_ids st).length
    · simp [ProcessManager.get_available_processes, hc]
    · simp [ProcessManager.get_available_processes, hc]
  · exact le_trans (List.length_filterMap_le _ _) (List.length_take_le _ _)
  · by_cases hc : offset + limit < (Cache.keys st.store "job:").length
    · simp [ProcessManager.get_jobs, hc]
    · simp [ProcessManager.get_jobs, hc]

/-- Witness for `C9` on an empty system with `limit = 1`, `offset = 0`. -/
theorem pagination_limit_and_next_link_witness :
    (1 : Nat) ≤ 1 ∧
    (((ProcessManager.get_available_processes {} 1 0).1.length ≤ 1 ∧
      ((ProcessManager.get_available_processes {} 1 0).2.isSome ↔
        0 + 1 < (ProcessRegistry.get_process_ids {}).length)) ∧
     ((ProcessManager.get_jobs {} 1 0).1.length ≤ 1 ∧
      ((ProcessManager.get_jobs {} 1 0).2.isSome ↔
        0 + 1 < (Cache.keys ({} : SysState).store "job:").length))) :=
  ⟨by decide, pagination_limit_and_next_link {} 1 0 (by decide)⟩

def jobRecJ1 : JobStatusInfo := { jobID := "j1", status := "accepted", progress := some 0 }

def stC6 : SysState :=
  { store := [(redisMakeKey "job:j1", .job jobRecJ1)], celery := [("j1", .pending)] }

/-- `C6` (code bug): `delete_job("ghost")` on a system that has never
seen the job id "ghost" raises nothing — `AsyncResult` always constructs
a truthy handle, so the not-found guard is dead code — and deleting the
existing job "j1" leaves its `job:j1` record in the store, so `get_jobs`
still lists it afterwards. -/
theorem delete_job_no_error_and_survives_listing :
    ProcessManager.delete_job stC6 "ghost" =
      (.ok (.obj [("status", .str "dismissed"), ("message", .str "Job dismissed")]), stC6) ∧
    Cache.get stC6.store "job:ghost" = none ∧
    (ProcessManager.delete_job stC6 "j1").1 =
      .ok (.obj [("status", .str "dismissed"), ("message", .str "Job dismissed")]) ∧
    (ProcessManager.get_jobs (ProcessManager.delete_job stC6 "j1").2 10 0).1 = [jobRecJ1] :=
  ⟨rfl, rfl, rfl, by decide⟩

def stC7 : SysState :=
  { store := [(redisMakeKey "job:p1", .job { jobID := "p1", status := "accepted" }),
              (redisMakeKey "job:f1", .job { jobID := "f1", status := "running" })],
    celery := [("f1", .failure "boom")] }

/-- `C7` (code bug): polling the result of the pending job "p1" and of
the failed job "f1" both raise a plain `ValueError` — the not-ready and
failed conditions differ only in the message (the failed one does carry
the failure detail), not in the exception type, so the two conditions
are not distinguishable as error types. -/
theorem get_job_result_same_exception_type :
    ProcessManager.get_job_result stC7 "p1" = .error (.valueError "Result not ready") ∧
    ProcessManager.get_job_result stC7 "f1" = .error (.valueError "Job failed: boom") ∧
    (PyErr.valueError "Result not ready").kind = (PyErr.valueError "Job failed: boom").kind :=
  ⟨rfl, rfl, rfl⟩

/-! ## A concrete registered process (after `examples/simple_process.py`) -/

def simpleProcessDescription : ProcessDescription :=
  { id := "simple_process", title := "Simple Process",
    description := "A simple example process",
    inputs := [("input_text",
      { title := "Input Text", description := "Text to process",
        scheme := { type := some "string" } })],
    outputs := [("output_text",
      { title := "Output Text", description := "Processed text",
        scheme := { type := some "string" } })] }

/-- `SimpleProcess`: uppercases `input_text` into `output_text`. -/
def simpleProcess : BaseProcess :=
  ⟨simpleProcessDescription, fun inputs =>
    match jLookup inputs "input_text" with
    | some (.str s) => .obj [("output_text", .str ⟨s.data.map Char.toUpper⟩)]
    | _ => .null⟩

def stC3 : SysState := { registry := [("simple_process", simpleProcess)] }

def reqAbc : ProcessExecRequestBody := { inputs := [("input_text", .str "abc")] }

/-- `C3` (code bug): a validated sync execution on a cache miss reports
`status="successful"` but the returned `ProcessExecResponse` has no
result member at all (pydantic drops the `value=result` keyword), the
job record written for the new job id is `status="accepted"` with
`progress=0` — not terminal, not 100 — and the computed result is only
handed to a `"store_result"` task that no worker registers.  The
implementation did run (`execLog`), so the result is computed and then
dropped. -/
theorem sync_execution_drops_result_and_nonterminal_record :
    (ProcessManager.execute_process stC3 "simple_process" reqAbc .sync).1 =
      .ok { status := "successful", jobID := "task-1", type := "process" } ∧
    Cache.get (ProcessManager.execute_process stC3 "simple_process" reqAbc .sync).2.store
        "job:task-1" =
      some (.job { jobID := "task-1", status := "accepted", created := some 0,
                   updated := some 0, progress := some 0, links := [selfLink "task-1"] }) ∧
    (ProcessManager.execute_process stC3 "simple_process" reqAbc .sync).2.queued.map
        QueuedTask.name = ["check_cache", "store_result"] ∧
    registeredCeleryTasks.contains "store_result" = false ∧
    (ProcessManager.execute_process stC3 "simple_process" reqAbc .sync).2.execLog =
      [("simple_process", [("input_text", .str "abc")])] :=
  ⟨rfl, rfl, rfl, rfl, rfl⟩

theorem Cache.get_singleton (k : String) (v : StoredVal) :
    Cache.get [(redisMakeKey k, v)] k = some v := by
  simp [Cache.get, assocGet, List.find?]

def ctC2 : CalculationTask := { inputs := [("input_text", .str "abc")] }

def cachedResultC2 : JValue := .obj [("output_text", .str "ABC")]

def stC2 : SysState :=
  { registry := [("simple_process", simpleProcess)],
    store := [(redisMakeKey ctC2.celery_key, .result cachedResultC2)] }

def reqWithOutputs : ProcessExecRequestBody :=
  { inputs := [("input_text", .str "abc")],
    outputs := some [("output_text", .obj [])] }

/-- `C2` (code bug): a request that resolves, passes input and output
validation, and whose inputs' fingerprint is present in the result cache
nevertheless fails when it names outputs: `CalculationTask` declares
`outputs: List[str] | None`, so pydantic rejects the outputs dict the
manager passes, and `execute_process` raises a `ValidationError` instead
of returning the cached result. -/
theorem cache_hit_request_with_outputs_raises :
    simpleProcess.validate_inputs reqWithOutputs.inputs = .ok true ∧
    simpleProcess.validate_outputs reqWithOutputs.outputs = .ok true ∧
    Cache.get stC2.store ctC2.celery_key = some (.result cachedResultC2) ∧
    ProcessManager.execute_process stC2 "simple_process" reqWithOutputs .async =
      (.error (.validationError "CalculationTask outputs: Input should be a valid list"),
       stC2) :=
  ⟨rfl, rfl, Cache.get_singleton _ _, rfl⟩

/-! ## Claim C10: the fingerprint carries no process id -/

theorem check_cache_hit (st : SysState) (ct : CalculationTask) (v : StoredVal)
    (hc : Cache.get st.store ct.celery_key = some v) :
    ProcessManager._check_cache st ct =
      (some ⟨"successful", mintTaskId (st.nextTaskId + 1), "process"⟩,
       { st with
           queued := (st.queued ++ [⟨"check_cache", .checkCache ct⟩]) ++
                       [⟨"find_result_in_cache", .findResult ct.celery_key⟩],
           nextTaskId := st.nextTaskId + 1 + 1,
           store := Cache.put st.store ("job:" ++ mintTaskId (st.nextTaskId + 1))
             (.job (cacheHitJobRecord (mintTaskId (st.nextTaskId + 1)) st.clock)) }) := by
  unfold ProcessManager._check_cache SysState.send_task Worker.check_cache
  dsimp only
  rw [hc]
  rfl

theorem check_cache_miss (st : SysState) (ct : CalculationTask)
    (hc : Cache.get st.store ct.celery_key = none) :
    ProcessManager._check_cache st ct =
      (none,
       { st with queued := st.queued ++ [⟨"check_cache", .checkCache ct⟩],
                 nextTaskId := st.nextTaskId + 1 }) := by
  unfold ProcessManager._check_cache SysState.send_task Worker.check_cache
  dsimp only
  rw [hc]
  rfl

/-- `C10`: the cache key contains no process id.  The fingerprint is a
function of the inputs alone (first conjunct: same inputs, any outputs
selection and response mode, hash equal — the embedding of `celery_key`
takes no process id at all), so when the fingerprint of the inputs is
already bound to some stored result — for instance one computed by a
different process `P` — executing any process `Q` on the same inputs is
treated as a cache hit: `execute_process` answers `successful` with a new
job id, `Q`'s implementation is never invoked (`execLog` unchanged), the
result served for the new job id is the previously stored one, and a
terminal from-cache job record is written. -/
theorem fingerprint_ignores_process_identity
    (st : SysState) (Q : String) (data : ProcessExecRequestBody) (mode : ExecutionMode)
    (proc : BaseProcess) (vP : JValue)
    (i : JDict) (o₁ o₂ : Option (List String)) (r₁ r₂ : ResponseType)
    (hq : ProcessRegistry.get_process st Q = .ok proc)
    (hvi : proc.validate_inputs data.inputs = .ok true)
    (hvo : proc.validate_outputs data.outputs = .ok true)
    (ho : data.outputs = none)
    (hcache : Cache.get st.store
        (CalculationTask.celery_key
          { inputs := data.inputs, outputs := none, response := data.response }) =
      some (.result vP)) :
    CalculationTask.celery_key ⟨i, o₁, r₁⟩ = CalculationTask.celery_key ⟨i, o₂, r₂⟩ ∧
    (ProcessManager.execute_process st Q data mode).1 =
      .ok ⟨"successful", mintTaskId (st.nextTaskId + 1), "process"⟩ ∧
    (ProcessManager.execute_process st Q data mode).2.execLog = st.execLog ∧
    Worker.find_result_in_cache (ProcessManager.execute_process st Q data mode).2.store
        (CalculationTask.celery_key
          { inputs := data.inputs, outputs := none, response := data.response }) =
      some (.result vP) ∧
    Cache.get (ProcessManager.execute_process st Q data mode).2.store
        ("job:" ++ mintTaskId (st.nextTaskId + 1)) =
      some (.job (cacheHitJobRecord (mintTaskId (st.nextTaskId + 1)) st.clock)) := by
  have hhas : ProcessRegistry.has_process st Q = true := by
    unfold ProcessRegistry.has_process
    unfold ProcessRegistry.get_process at hq
    cases hfind : List.find? (fun e => e.1 == Q) st.registry with
    | none => rw [hfind] at hq; exact absurd hq (by simp)
    | some e => simp [hfind]
  have hrun : ProcessManager.execute_process st Q data mode =
      (.ok ⟨"successful", mintTaskId (st.nextTaskId + 1), "process"⟩,
       { st with
           queued := (st.queued ++
               [⟨"check_cache", .checkCache ⟨data.inputs, none, data.response⟩⟩]) ++
             [⟨"find_result_in_cache",
               .findResult (CalculationTask.celery_key ⟨data.inputs, none, data.response⟩)⟩],
           nextTaskId := st.nextTaskId + 1 + 1,
           store := Cache.put st.store ("job:" ++ mintTaskId (st.nextTaskId + 1))
             (.job (cacheHitJobRecord (mintTaskId (st.nextTaskId + 1)) st.clock)) }) := by
    have hvo' : proc.validate_outputs none = .ok true := by rw [← ho]; exact hvo
    unfold ProcessManager.execute_process
    simp only [hhas, hq, hvi, ho, hvo', eq_self_iff_true, if_true]
    rw [check_cache_hit st _ _ hcache]
  refine ⟨rfl, ?_, ?_, ?_, ?_⟩
  · rw [hrun]
  · rw [hrun]
  · rw [hrun]
    show Worker.find_result_in_cache (Cache.put st.store _ _) _ = _
    unfold Worker.find_result_in_cache
    rw [Cache.get_put_other _ _ _ _ (celery_key_ne_job_key _ _)]
    exact hcache
  · rw [hrun]
    exact Cache.get_put_self _ _ _

/-- Witness for `C10`: `stC2`'s store carries a result under the
fingerprint of `{"input_text": "abc"}`; executing `simple_process` on
those inputs hits it without invoking the implementation. -/
theorem fingerprint_ignores_process_identity_witness :
    CalculationTask.celery_key ⟨[("x", .int 1)], none, .raw⟩ =
      CalculationTask.celery_key ⟨[("x", .int 1)], some ["output_text"], .document⟩ ∧
    (ProcessManager.execute_process stC2 "simple_process" reqAbc .async).1 =
      .ok ⟨"successful", mintTaskId (stC2.nextTaskId + 1), "process"⟩ ∧
    (ProcessManager.execute_process stC2 "simple_process" reqAbc .async).2.execLog =
      stC2.execLog ∧
    Worker.find_result_in_cache
        (ProcessManager.execute_process stC2 "simple_process" reqAbc .async).2.store
        (CalculationTask.celery_key
          { inputs := reqAbc.inputs, outputs := none, response := reqAbc.response }) =
      some (.result cachedResultC2) ∧
    Cache.get (ProcessManager.execute_process stC2 "simple_process" reqAbc .async).2.store
        ("job:" ++ mintTaskId (stC2.nextTaskId + 1)) =
      some (.job (cacheHitJobRecord (mintTaskId (stC2.nextTaskId + 1)) stC2.clock)) :=
  fingerprint_ignores_process_identity stC2 "simple_process" reqAbc .async
    simpleProcess cachedResultC2 [("x", .int 1)] none (some ["output_text"]) .raw .document
    rfl rfl rfl rfl (Cache.get_singleton _ _)

/-! ## Claim C4: validation errors -/

def strContainsAux (sub : List Char) : List Char → Bool
  | [] => sub.isEmpty
  | c :: rest => sub.isPrefixOf (c :: rest) || strContainsAux sub rest

/-- Does `msg` contain `sub` as a substring? -/
def strContains (msg sub : String) : Bool := strContainsAux sub.data msg.data

theorem strContainsAux_append (sub pre post : List Char)
    (h : strContainsAux sub post = true) :
    strContainsAux sub (pre ++ post) = true := by
  induction pre with
  | nil => simpa using h
  | cons c rest ih => simp [strContainsAux, ih]

theorem isPrefixOf_self_append (sub post : List Char) :
    sub.isPrefixOf (sub ++ post) = true := by
  induction sub with
  | nil => simp [List.isPrefixOf]
  | cons c rest ih => simp [List.isPrefixOf, ih]

theorem strContainsAux_here (sub post : List Char) :
    strContainsAux sub (sub ++ post) = true := by
  cases hsp : sub ++ post with
  | nil =>
    have hs : sub = [] := by
      cases sub with
      | nil => rfl
      | cons a l => simp at hsp
    rw [hs]
    rfl
  | cons c rest =>
    simp only [strContainsAux, Bool.or_eq_true]
    exact Or.inl (hsp ▸ isPrefixOf_self_append sub post)

/-- A string of the form `a ++ (n ++ b)` contains `n`. -/
theorem strContains_mid (a n b : String) : strContains (a ++ (n ++ b)) n = true := by
  unfold strContains
  rw [String.data_append, String.data_append]
  exact strContainsAux_append _ _ _ (strContainsAux_here _ _)

theorem checkOneInput_missing (inputs : JDict) (n : String) (d : ProcessInput)
    (hreq : 1 ≤ d.minOccurs) (habs : jHasKey inputs n = false) :
    checkOneInput inputs n d = some (.valueError (missingInputMsg n d)) := by
  unfold checkOneInput
  rw [if_pos ⟨by omega, by simp [habs]⟩]

theorem checkOneInput_shape (inputs : JDict) (n : String) (d : ProcessInput)
    (e : PyErr) (h : checkOneInput inputs n d = some e) : ∃ m, e = .valueError m := by
  unfold checkOneInput at h
  split at h
  · exact ⟨_, (Option.some.inj h).symm⟩
  · split at h
    · split at h
      · exact ⟨_, (Option.some.inj h).symm⟩
      · split at h
        · exact ⟨_, (Option.some.inj h).symm⟩
        · simp at h
    · simp at h

theorem validateInputsLoop_ok_all (l : List (String × ProcessInput)) (inputs : JDict)
    (b : Bool) (h : validateInputsLoop inputs l = .ok b) :
    ∀ nd ∈ l, checkOneInput inputs nd.1 nd.2 = none := by
  induction l with
  | nil => intro nd hmem; simp at hmem
  | cons hd tl ih =>
    intro nd hmem
    cases hd with
    | mk n d =>
      cases hc : checkOneInput inputs n d with
      | some e =>
        unfold validateInputsLoop at h
        rw [hc] at h
        exact absurd h (by simp)
      | none =>
        have h' : validateInputsLoop inputs tl = .ok b := by
          unfold validateInputsLoop at h
          rwa [hc] at h
        rcases List.mem_cons.mp hmem with heq | hmem'
        · rw [heq]; exact hc
        · exact ih h' nd hmem'

theorem validateInputsLoop_err_shape (l : List (String × ProcessInput)) (inputs : JDict)
    (e : PyErr) (h : validateInputsLoop inputs l = .error e) : ∃ m, e = .valueError m := by
  induction l with
  | nil => simp [validateInputsLoop] at h
  | cons hd tl ih =>
    cases hd with
    | mk n d =>
      cases hc : checkOneInput inputs n d with
      | some e' =>
        unfold validateInputsLoop at h
        rw [hc] at h
        exact (Except.error.inj h) ▸ checkOneInput_shape inputs n d e' hc
      | none =>
        unfold validateInputsLoop at h
        rw [hc] at h
        exact ih h

theorem validateInputsLoop_cons_none (inputs : JDict) (n : String) (d : ProcessInput)
    (rest : List (String × ProcessInput)) (h : checkOneInput inputs n d = none) :
    validateInputsLoop inputs ((n, d) :: rest) = validateInputsLoop inputs rest := by
  conv_lhs => unfold validateInputsLoop
  rw [h]

theorem validateInputsLoop_skips (inputs : JDict) (pre rest : List (String × ProcessInput))
    (hpre : ∀ nd ∈ pre, checkOneInput inputs nd.1 nd.2 = none) :
    validateInputsLoop inputs (pre ++ rest) = validateInputsLoop inputs rest := by
  induction pre with
  | nil => rfl
  | cons hd tl ih =>
    cases hd with
    | mk a b =>
      have h0 : checkOneInput inputs a b = none := hpre (a, b) (List.mem_cons_self _ _)
      rw [List.cons_append, validateInputsLoop_cons_none inputs a b (tl ++ rest) h0]
      exact ih (fun nd h => hpre nd (List.mem_cons_of_mem _ h))

theorem validateInputsLoop_cons_some (inputs : JDict) (n : String) (d : ProcessInput)
    (rest : List (String × ProcessInput)) (e : PyErr)
    (h : checkOneInput inputs n d = some e) :
    validateInputsLoop inputs ((n, d) :: rest) = .error e := by
  conv_lhs => unfold validateInputsLoop
  rw [h]

theorem validate_outputs_zero_declared (p : BaseProcess) (outputs : Option OutDict)
    (h : p.get_description.outputs = []) :
    p.validate_outputs outputs = .error (.valueError "Process has no defined outputs") := by
  unfold BaseProcess.validate_outputs
  rw [h]
  rfl

theorem validate_outputs_none_ok (p : BaseProcess)
    (h : p.get_description.outputs ≠ []) :
    p.validate_outputs none = .ok true := by
  unfold BaseProcess.validate_outputs
  rw [if_neg (by simp [h])]

theorem validate_outputs_invalid_listed (p : BaseProcess) (o : OutDict)
    (hne : p.get_description.outputs ≠ [])
    (hinv : (o.map Prod.fst).filter
        (fun out => ¬ (p.get_description.outputs.map Prod.fst).contains out) ≠ []) :
    p.validate_outputs (some o) = .error (.valueError (invalidOutputsMsg
      ((o.map Prod.fst).filter
        (fun out => ¬ (p.get_description.outputs.map Prod.fst).contains out))
      (p.get_description.outputs.map Prod.fst))) := by
  unfold BaseProcess.validate_outputs
  rw [if_neg (by simp [hne])]
  dsimp only
  rw [if_neg (fun hc => hinv (List.isEmpty_iff.mp hc))]

def twoInputDescription : ProcessDescription :=
  { id := "two_inputs",
    inputs := [("alpha", { description := "da", scheme := { type := some "string" } }),
               ("beta", { description := "db" })],
    outputs := [("result", { description := "dr" })] }

def twoInputProcess : BaseProcess := ⟨twoInputDescription, fun _ => .null⟩

/-- `C4` counterexample: `beta` is declared with `minOccurs = 1` and is
absent from the request `{"alpha": 1}`, yet the validation error names
only `alpha` (whose type check fires first); the error message does not
mention `beta` at all, refuting "fails with `InputValidationError`
naming that input" for `beta`. -/
theorem missing_input_not_named_counterexample :
    (1 : Int) ≤ ({ description := "db" } : ProcessInput).minOccurs ∧
    jHasKey [("alpha", .int 1)] "beta" = false ∧
    twoInputProcess.validate_inputs [("alpha", .int 1)] =
      .error (.valueError (invalidTypeMsg "alpha" "string" (.int 1)
        { description := "da", scheme := { type := some "string" } })) ∧
    strContains (invalidTypeMsg "alpha" "string" (.int 1)
        { description := "da", scheme := { type := some "string" } }) "beta" = false :=
  ⟨by decide, rfl, rfl, by decide⟩

/-- `C4` (amended): (1) whenever some declared input has `minOccurs ≥ 1`
and is absent from the request, validation fails with a `ValueError`
(the spec's `InputValidationError`); (2) the error names the *first*
offending declared input: if no earlier declared input offends, a
missing required input `n` produces exactly the missing-input message
for `n`, which contains `n`; (3) against a process with at least one
declared output, a request naming unknown outputs fails with a
`ValueError` (the spec's `OutputValidationError`) whose message lists
exactly the invalid names and the available set; (4) a process with zero
declared outputs fails that way regardless of the request's selection;
(5) an omitted output selection is valid. -/
theorem validation_errors_amended :
    (∀ (p : BaseProcess) (inputs : JDict) (n : String) (d : ProcessInput),
        (n, d) ∈ p.get_description.inputs → 1 ≤ d.minOccurs →
        jHasKey inputs n = false →
        ∃ m, p.validate_inputs inputs = .error (.valueError m)) ∧
    (∀ (p : BaseProcess) (inputs : JDict) (pre post : List (String × ProcessInput))
        (n : String) (d : ProcessInput),
        p.get_description.inputs = pre ++ (n, d) :: post →
        (∀ nd ∈ pre, checkOneInput inputs nd.1 nd.2 = none) →
        1 ≤ d.minOccurs → jHasKey inputs n = false →
        p.validate_inputs inputs = .error (.valueError (missingInputMsg n d)) ∧
          strContains (missingInputMsg n d) n = true) ∧
    (∀ (p : BaseProcess) (o : OutDict),
        p.get_description.outputs ≠ [] →
        (o.map Prod.fst).filter
            (fun out => ¬ (p.get_description.outputs.map Prod.fst).contains out) ≠ [] →
        p.validate_outputs (some o) = .error (.valueError (invalidOutputsMsg
          ((o.map Prod.fst).filter
            (fun out => ¬ (p.get_description.outputs.map Prod.fst).contains out))
          (p.get_description.outputs.map Prod.fst)))) ∧
    (∀ (p : BaseProcess) (outputs : Option OutDict),
        p.get_description.outputs = [] →
        p.validate_outputs outputs =
          .error (.valueError "Process has no defined outputs")) ∧
    (∀ (p : BaseProcess), p.get_description.outputs ≠ [] →
        p.validate_outputs none = .ok true) := by
  refine ⟨?_, ?_, ?_, ?_, ?_⟩
  · intro p inputs n d hmem hreq habs
    cases hres : p.validate_inputs inputs with
    | error e =>
      obtain ⟨m, hm⟩ := validateInputsLoop_err_shape _ inputs e hres
      exact ⟨m, by rw [← hm]⟩
    | ok b =>
      have hall := validateInputsLoop_ok_all _ inputs b hres (n, d) hmem
      dsimp only at hall
      rw [checkOneInput_missing inputs n d hreq habs] at hall
      exact absurd hall (by simp)
  · intro p inputs pre post n d hsplit hpre hreq habs
    constructor
    · show validateInputsLoop inputs p.get_description.inputs = _
      rw [hsplit, validateInputsLoop_skips inputs pre _ hpre,
        validateInputsLoop_cons_some inputs n d post _
          (checkOneInput_missing inputs n d hreq habs)]
    · show strContains (missingInputMsg n d) n = true
      unfold missingInputMsg
      simp only [String.append_assoc]
      exact strContains_mid "Missing required input \x27" n
        ("\x27. Description: " ++ d.description)
  · exact validate_outputs_invalid_listed
  · exact validate_outputs_zero_declared
  · exact validate_outputs_none_ok

/-- Witness for `C4` (amended) on concrete processes: the two-input
process misses `beta` alone (no earlier offender: `alpha` is supplied
correctly), an unknown output `bogus` is listed with the available set,
a zero-output process rejects any selection, and an omitted selection
passes. -/
theorem validation_errors_amended_witness :
    (∃ m, twoInputProcess.validate_inputs [("alpha", .str "hi")] =
      .error (.valueError m)) ∧
    (twoInputProcess.validate_inputs [("alpha", .str "hi")] =
        .error (.valueError (missingInputMsg "beta" { description := "db" })) ∧
      strContains (missingInputMsg "beta" { description := "db" }) "beta" = true) ∧
    simpleProcess.validate_outputs (some [("bogus", .obj [])]) =
      .error (.valueError (invalidOutputsMsg ["bogus"] ["output_text"])) ∧
    BaseProcess.validate_outputs ⟨{ id := "none" }, fun _ => .null⟩
        (some [("x", .obj [])]) =
      .error (.valueError "Process has no defined outputs") ∧
    simpleProcess.validate_outputs none = .ok true := by
  refine ⟨?_, ?_, ?_, ?_, ?_⟩
  · exact validation_errors_amended.1 twoInputProcess [("alpha", .str "hi")] "beta"
      { description := "db" } (by decide) (by decide) (by decide)
  · exact validation_errors_amended.2.1 twoInputProcess [("alpha", .str "hi")]
      [("alpha", { description := "da", scheme := { type := some "string" } })] []
      "beta" { description := "db" } rfl (by decide) (by decide) (by decide)
  · exact validation_errors_amended.2.2.1 simpleProcess [("bogus", .obj [])]
      (by decide) (by decide)
  · exact validation_errors_amended.2.2.2.1 ⟨{ id := "none" }, fun _ => .null⟩
      (some [("x", .obj [])]) rfl
  · exact validation_errors_amended.2.2.2.2 simpleProcess (by decide)

/-! ## Claim C8: key namespaces of the shared store -/

/-- `C8` counterexample: a job status record written through the shared
`Cache` lands under the physical key `process_results:job:<id>` — inside
the `process_results:*` namespace, not under a store key matching
`job:*`. -/
theorem job_record_key_not_in_job_namespace :
    Cache.put ([] : Store) "job:abc" (.job { jobID := "abc", status := "accepted" }) =
      [("process_results:job:abc", .job { jobID := "abc", status := "accepted" })] ∧
    strStartsWith "job:" "process_results:job:abc" = false ∧
    strStartsWith "process_results:" "process_results:job:abc" = true :=
  ⟨rfl, by decide, by decide⟩

/-- Every entry of the store is either a job record under
`process_results:job:<id>` or a fingerprinted result under
`process_results:<hex digest>`. -/
def WellNamespaced (s : Store) : Prop :=
  ∀ kv ∈ s, (kv.2.isJob = true → ∃ id, kv.1 = redisMakeKey ("job:" ++ id)) ∧
    (kv.2.isJob = false → ∃ x, kv.1 = redisMakeKey (sha256hex x))

theorem wellNamespaced_put_job (s : Store) (id : String) (j : JobStatusInfo)
    (h : WellNamespaced s) :
    WellNamespaced (Cache.put s ("job:" ++ id) (.job j)) := by
  intro kv hmem
  rcases mem_assocPut _ _ _ _ hmem with heq | hmem'
  · rw [heq]
    exact ⟨fun _ => ⟨id, rfl⟩, fun hfalse => by simp [StoredVal.isJob] at hfalse⟩
  · exact h kv hmem'

theorem wellNamespaced_put_result (s : Store) (t : CalculationTask) (v : JValue)
    (h : WellNamespaced s) :
    WellNamespaced (Cache.put s t.celery_key (.result v)) := by
  intro kv hmem
  rcases mem_assocPut _ _ _ _ hmem with heq | hmem'
  · rw [heq]
    exact ⟨fun htrue => by simp [StoredVal.isJob] at htrue,
           fun _ => ⟨pyJsonDumps (.obj t.inputs), rfl⟩⟩
  · exact h kv hmem'

theorem wn_check_cache (st : SysState) (ct : CalculationTask)
    (h : WellNamespaced st.store) :
    WellNamespaced (ProcessManager._check_cache st ct).2.store := by
  unfold ProcessManager._check_cache SysState.send_task
  dsimp only
  split
  · exact wellNamespaced_put_job _ _ _ h
  · exact h

theorem wn_async_execute (st : SysState) (pid : String) (ct : CalculationTask)
    (h : WellNamespaced st.store) :
    WellNamespaced (AsyncExecutionStrategy.execute st pid ct).2.store := by
  unfold AsyncExecutionStrategy.execute SysState.send_task
  dsimp only
  exact wellNamespaced_put_job _ _ _ h

theorem wn_sync_execute (st : SysState) (pid : String) (ct : CalculationTask)
    (h : WellNamespaced st.store) :
    WellNamespaced (SyncExecutionStrategy.execute st pid ct).2.store := by
  unfold SyncExecutionStrategy.execute SysState.send_task
  dsimp only
  split
  · exact h
  · exact wellNamespaced_put_job _ _ _ h

theorem wn_execute_process (st : SysState) (pid : String)
    (data : ProcessExecRequestBody) (mode : ExecutionMode)
    (h : WellNamespaced st.store) :
    WellNamespaced (ProcessManager.execute_process st pid data mode).2.store := by
  unfold ProcessManager.execute_process
  split
  · split
    · exact h
    · split
      · exact h
      · split
        · exact h
        · split
          · exact h
          · dsimp only
            rcases hcc : ProcessManager._check_cache st
                ⟨data.inputs, none, data.response⟩ with ⟨copt, st1⟩
            have hw := wn_check_cache st ⟨data.inputs, none, data.response⟩ h
            rw [hcc] at hw
            cases copt with
            | some cached => exact hw
            | none =>
              cases mode with
              | sync => exact wn_sync_execute st1 pid _ hw
              | async => exact wn_async_execute st1 pid _ hw
  · exact h

/-- `C8` (amended): both logical key families live inside the single
`process_results:` prefix of the shared store — a job record's physical
key is `process_results:job:<id>` (so not a store key matching `job:*`),
a fingerprinted result's is `process_results:<64-hex digest>` — and the
two families are disjoint: a fingerprint key never equals a job record
key (a hex digest cannot start with `job:`).  Every store write of the
orchestrator and the worker respects this namespacing (`WellNamespaced`
is preserved by `execute_process`, by the queue-side `execute_process`
task with its cache-writing `on_success`, and by `delete_job`; no other
modelled operation writes to the store). -/
theorem store_namespaces_amended :
    (∀ id : String, redisMakeKey ("job:" ++ id) = "process_results:job:" ++ id) ∧
    (∀ (t : CalculationTask) (id : String),
        redisMakeKey t.celery_key ≠ redisMakeKey ("job:" ++ id)) ∧
    (∀ (st : SysState) (pid : String) (data : ProcessExecRequestBody)
        (mode : ExecutionMode), WellNamespaced st.store →
        WellNamespaced (ProcessManager.execute_process st pid data mode).2.store) ∧
    (∀ (st : SysState) (pid : String) (data : CalculationTask),
        WellNamespaced st.store →
        WellNamespaced (Worker.run_execute_process st pid data).2.store) ∧
    (∀ (st : SysState) (id : String), WellNamespaced st.store →
        WellNamespaced (ProcessManager.delete_job st id).2.store) :=
  ⟨fun _ => rfl, celery_key_ne_job_key, wn_execute_process,
   fun _ _ _ h => h, fun _ _ h => h⟩

/-- Witness for `C8` (amended) on the concrete empty-store system
`stC3`. -/
theorem store_namespaces_amended_witness :
    redisMakeKey ("job:" ++ "abc") = "process_results:job:" ++ "abc" ∧
    redisMakeKey (CalculationTask.celery_key { inputs := [] }) ≠
      redisMakeKey ("job:" ++ "abc") ∧
    WellNamespaced (ProcessManager.execute_process stC3 "simple_process" reqAbc .sync).2.store ∧
    WellNamespaced (Worker.run_execute_process stC3 "simple_process" ctC2).2.store ∧
    WellNamespaced (ProcessManager.delete_job stC3 "j1").2.store :=
  ⟨store_namespaces_amended.1 "abc",
   store_namespaces_amended.2.1 { inputs := [] } "abc",
   store_namespaces_amended.2.2.1 stC3 "simple_process" reqAbc .sync
     (by intro kv hmem; simp [stC3] at hmem),
   store_namespaces_amended.2.2.2.1 stC3 "simple_process" ctC2
     (by intro kv hmem; simp [stC3] at hmem),
   store_namespaces_amended.2.2.2.2 stC3 "j1"
     (by intro kv hmem; simp [stC3] at hmem)⟩
